import Mathlib

/-!
# sdkrouter: load-aware routing over a pool of SDK servers

A shallow embedding of `app/sdkrouter/sdkrouter.go` and the properties of its
specification.

Modelling conventions.

* A `*models.LbrynetServer` is a `ServerPtr`: the identity of an allocated server
  object.  The objects themselves are never mutated by the router, so they are
  given once and for all by a `Heap`, a function from pointers to the value pointed
  at.  Two distinct pointers may well point at objects with the same `Address`
  (a store fetch constructs new objects at every call).
* The Go map `load` is an association list with pairwise distinct keys
  (`AList`); `len`, `delete`, assignment and `range` are `entries.length`,
  `AList.erase`, `AList.insert` and `mapRange`.
* Everything the router reads from outside comes in through an `Env` (the clock,
  the result the store would return, the random source, the order in which a
  `range` over the map visits its entries) and, for the load queries of an update
  cycle, through a function from the position in the loop and the address queried
  to the outcome of the query.
* The two readings of the clock inside one call of `reloadServersFromDB` (the one of
  `time.Since` and the one of `time.Now`) give the same instant, `Env.now`.
* A call that panics returns `none`.
* Locks, logging and the metric gauge have no effect on the router state and are
  not modelled.  The number of store fetches is counted in the ghost field
  `dbFetches`.
* `WatchLoad` does not return: it is an endless sequence of calls of
  `reloadServersFromDB` and `updateLoadAndMetrics`, and a finite part of it is a list
  of `Call`s executed by `run`.
-/

namespace sdkrouter

/-! ## Data model -/

/-- The fields of `models.LbrynetServer` read by the router. -/
structure LbrynetServer where
  Name : String
  Address : String
deriving DecidableEq, Repr

/-- A non-nil `*models.LbrynetServer`: the identity of an allocated server object. -/
abbrev ServerPtr := Nat

/-- The server objects: `heap p` is the value the pointer `p` points at. -/
abbrev Heap := ServerPtr → LbrynetServer

/-- The Go type `map[*models.LbrynetServer]uint64`.  The loads are only stored and
compared, so a `uint64` is a natural number here. -/
abbrev LoadMap := AList (fun _ : ServerPtr => Nat)

/-- A `time.Time`, in nanoseconds counted from the zero `time.Time`. -/
abbrev Time := Int

/-- A `time.Duration`: a number of nanoseconds that fits an `int64`. -/
abbrev Duration := Int

/-- The constant `time.Second`. -/
def Second : Duration := 1000000000

/-- The largest `time.Duration`. -/
def maxDuration : Duration := 2 ^ 63 - 1

/-- The smallest `time.Duration`. -/
def minDuration : Duration := -(2 ^ 63)

/-- The method `Time.Sub`: the difference `t - u`, saturated to the range of a
`time.Duration`. -/
def timeSub (t u : Time) : Duration :=
  if maxDuration < t - u then maxDuration
  else if t - u < minDuration then minDuration
  else t - u

/-- The function `time.Since(t)` when the clock reads `now`. -/
def timeSince (now t : Time) : Duration := timeSub now t

/-- What `models.LbrynetServers().AllG()` returns: a slice of servers and an error
(`none` is the nil error). -/
structure FetchResult where
  servers : List ServerPtr
  err : Option String
deriving DecidableEq, Repr

/-- Modelled from the spec: the contract of the store fetch
`models.LbrynetServers().AllG()`, whose code is not part of `sdkrouter.go`.  The
store either lists its servers or fails with an error; a fetch that fails returns
no servers (a nil slice) with its error. -/
def FetchResult.valid (f : FetchResult) : Prop :=
  f.err ≠ none → f.servers = []

/-- The outside world as seen by one call into the router. -/
structure Env where
  /-- The reading of the clock during the call. -/
  now : Time
  /-- What the store returns if it is asked during the call. -/
  db : FetchResult
  /-- The random source behind `rand.Intn`. -/
  rnd : Nat
  /-- The choices that fix the order of a `range` over the load map. -/
  order : List Nat

/-- The struct `Router`, without its two locks, and with the ghost counter
`dbFetches` of the calls made to the store so far. -/
structure Router where
  servers : List ServerPtr
  load : LoadMap
  useDB : Bool
  lastLoaded : Time
  dbFetches : Nat

/-! ## Library functions used by the router -/

/-- The function `rand.Intn(n)`: it panics when `n ≤ 0` and otherwise returns some
number of `[0, n)`, here the one picked by `rnd`. -/
def Intn (rnd n : Nat) : Option Nat :=
  if n = 0 then none else some (rnd % n)

/-- The sequence in which `for ... := range m` visits the entries of a map, which Go
leaves unspecified: the next entry visited is chosen among the remaining ones by the
next number of `order`; when `order` runs out the remaining entries come in the
order in which they are stored. -/
def mapRange : List Nat → List (Sigma fun _ : ServerPtr => Nat) →
    List (Sigma fun _ : ServerPtr => Nat)
  | _, [] => []
  | [], e :: m => e :: m
  | k :: ks, e :: m =>
    let x := (e :: m).getD (k % (e :: m).length) e
    x :: mapRange ks ((e :: m).erase x)

/-! ## The router -/

/-- The method `Router.setServers`. -/
def setServers (r : Router) (servers : List ServerPtr) : Router :=
  if servers.length = 0 then r
  else { r with servers := servers }

/-- The method `Router.reloadServersFromDB`.  The error of the fetch is logged and
nothing else. -/
def reloadServersFromDB (e : Env) (r : Router) : Router :=
  if !r.useDB || decide (timeSince e.now r.lastLoaded < 30 * Second) then r
  else
    setServers { r with lastLoaded := e.now, dbFetches := r.dbFetches + 1 } e.db.servers

/-- The function `NewWithServers`. -/
def NewWithServers (servers : List ServerPtr) : Router :=
  setServers { servers := [], load := ∅, useDB := false, lastLoaded := 0, dbFetches := 0 }
    servers

/-- The function `New`.  Its argument stands for the server objects that `New`
allocates, one for each entry of the map it is given, in the order in which it
visits the map. -/
def New (e : Env) (servers : List ServerPtr) : Router :=
  if 0 < servers.length then NewWithServers servers
  else
    reloadServersFromDB e
      { servers := [], load := ∅, useDB := true, lastLoaded := 0, dbFetches := 0 }

/-- The method `Router.GetAll`: the list returned and the router state after the
call. -/
def GetAll (e : Env) (r : Router) : List ServerPtr × Router :=
  let r1 := reloadServersFromDB e r
  (r1.servers, r1)

/-- The method `Router.RandomServer`: `none` when indexing the pool panics. -/
def RandomServer (e : Env) (r : Router) : Option (ServerPtr × Router) :=
  let r1 := reloadServersFromDB e r
  match Intn e.rnd r1.servers.length with
  | none => none
  | some i =>
    match r1.servers[i]? with
    | none => none
    | some s => some (s, r1)

/-- The loop of `Router.LeastLoaded` over the entries of the load map in the order
they are visited, from the current values of `best` (`none` is nil) and `min`. -/
def leastLoadedLoop : List (Sigma fun _ : ServerPtr => Nat) → Option ServerPtr → Nat →
    Option ServerPtr
  | [], best, _ => best
  | ⟨server, numWallets⟩ :: rest, best, min =>
    if best = none ∨ numWallets < min then leastLoadedLoop rest (some server) numWallets
    else leastLoadedLoop rest best min

/-- The method `Router.LeastLoaded`: the server returned and the router state after
the call; `none` when the call panics.  (The loop leaves `best` nil only over an
empty map, which is handled before it.) -/
def LeastLoaded (e : Env) (r : Router) : Option (ServerPtr × Router) :=
  if r.load.entries.length = 0 then RandomServer e r
  else
    match leastLoadedLoop (mapRange e.order r.load.entries) none 0 with
    | none => none
    | some best => some (best, r)

/-- The loop of `Router.updateLoadAndMetrics` over the servers still to query, `i`
being the number of servers already queried: `rpc i a` is the outcome of the query
`ljsonrpc.NewClient(a).WalletList("", 1, 1)` made at that point, `none` for an error
and `some n` for a wallet list with `TotalPages = n`. -/
def updateLoop (heap : Heap) (rpc : Nat → String → Option Nat) :
    Nat → List ServerPtr → LoadMap → LoadMap
  | _, [], load => load
  | i, server :: rest, load =>
    match rpc i (heap server).Address with
    | none => updateLoop heap rpc (i + 1) rest (load.erase server)
    | some totalPages => updateLoop heap rpc (i + 1) rest (load.insert server totalPages)

/-- The method `Router.updateLoadAndMetrics`: `e1` is the world at the call of
`GetAll`, `e2` the world at the call of `LeastLoaded` that ends the cycle. -/
def updateLoadAndMetrics (heap : Heap) (e1 : Env) (rpc : Nat → String → Option Nat)
    (e2 : Env) (r : Router) : Option Router :=
  let r1 := (GetAll e1 r).2
  let r2 := { r1 with load := updateLoop heap rpc 0 (GetAll e1 r).1 r1.load }
  match LeastLoaded e2 r2 with
  | none => none
  | some (_, r3) => some r3

/-- The decimal digits of a natural number, most significant first, as `%d` prints
them. -/
def decimalDigits (n : Nat) : List Char :=
  ((Nat.digits 10 n).reverse).map fun d => Char.ofNat (d + 48)

/-- The verb `%d` of `fmt.Sprintf` at an integer. -/
def formatInt : Int → String
  | Int.ofNat 0 => "0"
  | Int.ofNat (n + 1) => String.mk (decimalDigits (n + 1))
  | Int.negSucc n => String.mk ('-' :: decimalDigits (n + 1))

/-- The function `WalletID`, on all the integers (the values of a Go `int` are among
them). -/
def WalletID (userID : Int) : String :=
  "lbrytv-id." ++ formatInt userID ++ ".wallet"

/-! ## Sequences of calls -/

/-- A call into a router from outside: the exported methods, and the two methods
that `WatchLoad` calls at every tick. -/
inductive Call where
  | reloadServersFromDB (e : Env)
  | GetAll (e : Env)
  | RandomServer (e : Env)
  | LeastLoaded (e : Env)
  | updateLoadAndMetrics (e1 : Env) (rpc : Nat → String → Option Nat) (e2 : Env)

/-- The router state after a call; `none` when the call panics. -/
def Call.exec (heap : Heap) : Call → Router → Option Router
  | Call.reloadServersFromDB e, r => some (sdkrouter.reloadServersFromDB e r)
  | Call.GetAll e, r => some (sdkrouter.GetAll e r).2
  | Call.RandomServer e, r => (sdkrouter.RandomServer e r).map Prod.snd
  | Call.LeastLoaded e, r => (sdkrouter.LeastLoaded e r).map Prod.snd
  | Call.updateLoadAndMetrics e1 rpc e2, r => sdkrouter.updateLoadAndMetrics heap e1 rpc e2 r

/-- The router state after a sequence of calls made one after the other. -/
def run (heap : Heap) : List Call → Router → Option Router
  | [], r => some r
  | c :: cs, r =>
    match c.exec heap r with
    | none => none
    | some r1 => run heap cs r1

/-! ## Example data -/

/-- Server objects for the examples: `0`, `1`, `2` at the addresses `A`, `B`, `C`, and
`10`, `11`, other objects at the addresses `A` and `B`. -/
def exampleHeap : Heap := fun p =>
  match p with
  | 0 => ⟨"a", "A"⟩
  | 1 => ⟨"b", "B"⟩
  | 2 => ⟨"c", "C"⟩
  | 10 => ⟨"a", "A"⟩
  | 11 => ⟨"b", "B"⟩
  | _ => ⟨"", ""⟩

/-- The world at `now` seconds, with a store that holds `db` and visits maps in the
order given by `order`. -/
def exampleEnv (now : Int) (db : List ServerPtr) (order : List Nat) : Env :=
  { now := now * Second, db := ⟨db, none⟩, rnd := 0, order := order }

/-- Load queries that answer by address: `A` has `a` pages, `B` has `b` pages, `C` has
`c` pages (`none` for a server that does not respond), any other address fails. -/
def exampleRpc (a b c : Option Nat) : Nat → String → Option Nat := fun _ addr =>
  if addr = "A" then a else if addr = "B" then b else if addr = "C" then c else none

/-- A router with the recorded loads `A:5`, `B:2`, `C:9`. -/
def routerABC : Router :=
  { servers := [0, 1, 2], load := (((∅ : LoadMap).insert 0 5).insert 1 2).insert 2 9,
    useDB := false, lastLoaded := 0, dbFetches := 0 }

/-- A router with the recorded loads `A:3`, `B:3`. -/
def routerTie : Router :=
  { servers := [0, 1], load := ((∅ : LoadMap).insert 0 3).insert 1 3,
    useDB := false, lastLoaded := 0, dbFetches := 0 }

/-- A store-backed router built at second 100 from a store that holds the objects
`0` and `1`, after one update cycle in which `A` reports 5 pages and `B` 2 pages. -/
def staleCycle1 : Option Router :=
  updateLoadAndMetrics exampleHeap (exampleEnv 100 [0, 1] []) (exampleRpc (some 5) (some 2) none)
    (exampleEnv 100 [0, 1] []) (New (exampleEnv 100 [0, 1] []) [])

/-- The router of `staleCycle1` after a second update cycle, at second 220: the store
now returns the newly constructed objects `10` and `11` for the same two addresses,
`A` reports 5 pages and `B` does not respond. -/
def staleCycle2 : Option Router :=
  staleCycle1.bind
    (updateLoadAndMetrics exampleHeap (exampleEnv 220 [10, 11] [])
      (exampleRpc (some 5) none none) (exampleEnv 220 [10, 11] []))

/-- A store-backed router built at second 100 from a store that holds the object `0`,
after one update cycle in which `A` reports 5 pages. -/
def rekeyCycle1 : Option Router :=
  updateLoadAndMetrics exampleHeap (exampleEnv 100 [0] []) (exampleRpc (some 5) none none)
    (exampleEnv 100 [0] []) (New (exampleEnv 100 [0] []) [])

/-- The router of `rekeyCycle1` after a second update cycle, at second 220: the store
now returns the newly constructed object `10` for the address `A`, which reports 7
pages. -/
def rekeyCycle2 : Option Router :=
  rekeyCycle1.bind
    (updateLoadAndMetrics exampleHeap (exampleEnv 220 [10] []) (exampleRpc (some 7) none none)
      (exampleEnv 220 [10] []))

/-- A store-backed router that fetched the pool `[0]` at second 100. -/
def routerFetchedAt100 : Router :=
  { servers := [0], load := ∅, useDB := true, lastLoaded := 100 * Second, dbFetches := 1 }

/-- The world at second 200 with a store whose fetch fails: `AllG` returns a nil slice
and an error. -/
def failingFetchEnv : Env :=
  { now := 200 * Second, db := ⟨[], some "models: failed to assign all query results"⟩,
    rnd := 0, order := [] }

/-! ## Definitions used to state and prove the properties -/

/-- The value of a decimal digit character. -/
def digitValue (c : Char) : Nat := c.toNat - 48

/-- Reads back what `formatInt` prints: an optional minus sign, then decimal digits. -/
def parseInt (s : String) : Int :=
  match s.data with
  | '-' :: cs => -((Nat.ofDigits (10 : Nat) ((cs.map digitValue).reverse) : Nat) : Int)
  | cs => ((Nat.ofDigits (10 : Nat) ((cs.map digitValue).reverse) : Nat) : Int)

/-- `FirstMin it s v`: the entry `⟨s, v⟩` occurs in `it`, every entry before it has a
load above `v` and every entry after it a load of at least `v`. -/
def FirstMin (it : List (Sigma fun _ : ServerPtr => Nat)) (s : ServerPtr) (v : Nat) : Prop :=
  ∃ pre post, it = pre ++ ⟨s, v⟩ :: post ∧ (∀ x ∈ pre, v < x.2) ∧ ∀ x ∈ post, v ≤ x.2

/-- Whether a call of `reloadServersFromDB` made at `now` fetches. -/
def due (now : Time) (r : Router) : Prop :=
  r.useDB = true ∧ 30 * Second ≤ now - r.lastLoaded

/-! ## Lemmas -/

theorem digitValue_ofNat (d : Nat) (h : d < 10) : digitValue (Char.ofNat (d + 48)) = d := by
  interval_cases d <;> decide

theorem ofNat_ne_minus (d : Nat) (h : d < 10) : Char.ofNat (d + 48) ≠ '-' := by
  interval_cases d <;> decide

theorem map_digitValue_decimalDigits (n : Nat) :
    (decimalDigits n).map digitValue = (Nat.digits 10 n).reverse := by
  unfold decimalDigits
  rw [List.map_map]
  conv_rhs => rw [← List.map_id (Nat.digits 10 n).reverse]
  apply List.map_congr_left
  intro d hd
  have : d < 10 := Nat.digits_lt_base (by norm_num) (List.mem_reverse.mp hd)
  simpa using digitValue_ofNat d this

theorem ofDigits_decimalDigits (n : Nat) :
    Nat.ofDigits 10 (((decimalDigits n).map digitValue).reverse) = n := by
  rw [map_digitValue_decimalDigits, List.reverse_reverse, Nat.ofDigits_digits]

theorem decimalDigits_head_ne_minus (n : Nat) (cs : List Char) :
    decimalDigits n ≠ '-' :: cs := by
  intro h
  have hm : '-' ∈ decimalDigits n := by rw [h]; exact List.mem_cons_self _ _
  unfold decimalDigits at hm
  obtain ⟨d, hd, hc⟩ := List.mem_map.mp hm
  exact ofNat_ne_minus d (Nat.digits_lt_base (by norm_num) (List.mem_reverse.mp hd)) hc

theorem parseInt_formatInt (n : Int) : parseInt (formatInt n) = n := by
  cases n with
  | ofNat m =>
    cases m with
    | zero => simp [formatInt, parseInt, digitValue]
    | succ k =>
      have h := ofDigits_decimalDigits (k + 1)
      simp only [formatInt, parseInt]
      split
      · next cs hcs => exact absurd hcs (decimalDigits_head_ne_minus _ _)
      · next cs hcs =>
        rw [h]; rfl
  | negSucc k =>
    have h := ofDigits_decimalDigits (k + 1)
    simp only [formatInt, parseInt]
    rw [h]; rfl

theorem formatInt_injective : Function.Injective formatInt :=
  Function.LeftInverse.injective parseInt_formatInt

theorem WalletID_data (n : Int) :
    (WalletID n).data = "lbrytv-id.".data ++ (formatInt n).data ++ ".wallet".data := by
  simp [WalletID, String.data_append]

theorem mapRange_perm (ks : List Nat) (m : List (Sigma fun _ : ServerPtr => Nat)) :
    (mapRange ks m).Perm m := by
  induction ks generalizing m with
  | nil => cases m <;> simp [mapRange]
  | cons k ks ih =>
    cases m with
    | nil => simp [mapRange]
    | cons e m =>
      simp only [mapRange]
      have hx : (e :: m).getD (k % (e :: m).length) e ∈ e :: m := by
        rw [List.getD_eq_getElem _ _ (Nat.mod_lt _ (by simp))]
        exact List.getElem_mem _
      exact ((ih _).cons _).trans (List.perm_cons_erase hx).symm

theorem leastLoadedLoop_some (it : List (Sigma fun _ : ServerPtr => Nat)) (b : ServerPtr)
    (m : Nat) :
    (leastLoadedLoop it (some b) m = some b ∧ ∀ x ∈ it, m ≤ x.2) ∨
    ∃ s v, leastLoadedLoop it (some b) m = some s ∧ v < m ∧ FirstMin it s v := by
  induction it generalizing b m with
  | nil => left; simp [leastLoadedLoop]
  | cons x rest ih =>
    obtain ⟨s0, v0⟩ := x
    by_cases hlt : v0 < m
    · have hstep : leastLoadedLoop (⟨s0, v0⟩ :: rest) (some b) m
          = leastLoadedLoop rest (some s0) v0 := by simp [leastLoadedLoop, hlt]
      right
      rcases ih s0 v0 with ⟨hr, hall⟩ | ⟨s, v, hr, hv, pre, post, hit, hpre, hpost⟩
      · exact ⟨s0, v0, by rw [hstep, hr], hlt, [], rest, rfl, by simp, hall⟩
      · refine ⟨s, v, by rw [hstep, hr], lt_trans hv hlt, ⟨s0, v0⟩ :: pre, post, by simp [hit], ?_,
          hpost⟩
        intro y hy
        rcases List.mem_cons.mp hy with rfl | hy
        · exact hv
        · exact hpre y hy
    · have hstep : leastLoadedLoop (⟨s0, v0⟩ :: rest) (some b) m
          = leastLoadedLoop rest (some b) m := by simp [leastLoadedLoop, hlt]
      rcases ih b m with ⟨hr, hall⟩ | ⟨s, v, hr, hv, pre, post, hit, hpre, hpost⟩
      · left
        refine ⟨by rw [hstep, hr], ?_⟩
        intro y hy
        rcases List.mem_cons.mp hy with rfl | hy
        · exact Nat.le_of_not_lt hlt
        · exact hall y hy
      · right
        refine ⟨s, v, by rw [hstep, hr], hv, ⟨s0, v0⟩ :: pre, post, by simp [hit], ?_, hpost⟩
        intro y hy
        rcases List.mem_cons.mp hy with rfl | hy
        · exact lt_of_lt_of_le hv (Nat.le_of_not_lt hlt)
        · exact hpre y hy

theorem leastLoadedLoop_none (it : List (Sigma fun _ : ServerPtr => Nat)) (h : it ≠ []) :
    ∃ s v, leastLoadedLoop it none 0 = some s ∧ FirstMin it s v := by
  cases it with
  | nil => exact absurd rfl h
  | cons x rest =>
    obtain ⟨s0, v0⟩ := x
    have hstep : leastLoadedLoop (⟨s0, v0⟩ :: rest) none 0
        = leastLoadedLoop rest (some s0) v0 := by simp [leastLoadedLoop]
    rcases leastLoadedLoop_some rest s0 v0 with ⟨hr, hall⟩ | ⟨s, v, hr, hv, pre, post, hit, hpre, hpost⟩
    · exact ⟨s0, v0, by rw [hstep, hr], [], rest, rfl, by simp, hall⟩
    · refine ⟨s, v, by rw [hstep, hr], ⟨s0, v0⟩ :: pre, post, by simp [hit], ?_, hpost⟩
      intro y hy
      rcases List.mem_cons.mp hy with rfl | hy
      · exact hv
      · exact hpre y hy

theorem FirstMin.mem {it : List (Sigma fun _ : ServerPtr => Nat)} {s : ServerPtr} {v : Nat}
    (h : FirstMin it s v) : (⟨s, v⟩ : Sigma fun _ : ServerPtr => Nat) ∈ it := by
  obtain ⟨pre, post, hit, -, -⟩ := h
  simp [hit]

theorem FirstMin.le {it : List (Sigma fun _ : ServerPtr => Nat)} {s : ServerPtr} {v : Nat}
    (h : FirstMin it s v) : ∀ x ∈ it, v ≤ x.2 := by
  obtain ⟨pre, post, hit, hpre, hpost⟩ := h
  intro x hx
  rw [hit] at hx
  rcases List.mem_append.mp hx with hx | hx
  · exact le_of_lt (hpre x hx)
  · rcases List.mem_cons.mp hx with rfl | hx
    · exact le_refl _
    · exact hpost x hx

theorem LeastLoaded_of_load (e : Env) (r : Router) (h : r.load.entries ≠ []) :
    ∃ s v, LeastLoaded e r = some (s, r) ∧ FirstMin (mapRange e.order r.load.entries) s v := by
  have hne : mapRange e.order r.load.entries ≠ [] := by
    intro h0
    have := (mapRange_perm e.order r.load.entries).symm
    rw [h0] at this
    exact h (List.Perm.eq_nil this)
  obtain ⟨s, v, hs, hfm⟩ := leastLoadedLoop_none _ hne
  refine ⟨s, v, ?_, hfm⟩
  have hlen : ¬ r.load.entries.length = 0 := by
    rw [List.length_eq_zero]; exact h
  simp [LeastLoaded, hlen, hs]

/-! ### The conditional refresh -/

theorem setServers_load (r : Router) (l : List ServerPtr) : (setServers r l).load = r.load := by
  unfold setServers; split <;> rfl

theorem setServers_ne_nil (r : Router) (l : List ServerPtr) (h : r.servers ≠ []) :
    (setServers r l).servers ≠ [] := by
  unfold setServers
  split
  · exact h
  · next hl => simpa [List.length_eq_zero] using hl

theorem reloadServersFromDB_load (e : Env) (r : Router) :
    (reloadServersFromDB e r).load = r.load := by
  unfold reloadServersFromDB
  split
  · rfl
  · rw [setServers_load]

theorem reloadServersFromDB_ne_nil (e : Env) (r : Router) (h : r.servers ≠ []) :
    (reloadServersFromDB e r).servers ≠ [] := by
  unfold reloadServersFromDB
  split
  · exact h
  · exact setServers_ne_nil _ _ h

theorem reloadServersFromDB_static (e : Env) (r : Router) (h : r.useDB = false) :
    reloadServersFromDB e r = r := by
  simp [reloadServersFromDB, h]

theorem timeSince_lt_iff (now t : Time) :
    timeSince now t < 30 * Second ↔ now - t < 30 * Second := by
  simp only [timeSince, timeSub, maxDuration, minDuration, Second, Duration, Time]
  split_ifs <;> constructor <;> intro _ <;> omega

theorem reloadServersFromDB_due (e : Env) (r : Router) (h : due e.now r) :
    reloadServersFromDB e r =
      setServers { r with lastLoaded := e.now, dbFetches := r.dbFetches + 1 } e.db.servers := by
  obtain ⟨h1, h2⟩ := h
  have : ¬ timeSince e.now r.lastLoaded < 30 * Second := by
    rw [timeSince_lt_iff]; exact not_lt.mpr h2
  simp [reloadServersFromDB, h1, this]

theorem reloadServersFromDB_not_due (e : Env) (r : Router) (h : ¬ due e.now r) :
    reloadServersFromDB e r = r := by
  unfold due at h
  by_cases h1 : r.useDB = true
  · have h2 : timeSince e.now r.lastLoaded < 30 * Second := by
      rw [timeSince_lt_iff]
      exact lt_of_not_le fun h3 => h ⟨h1, h3⟩
    simp [reloadServersFromDB, h2]
  · simp [reloadServersFromDB, h1]

theorem setServers_fields (r : Router) (l : List ServerPtr) :
    (setServers r l).useDB = r.useDB ∧ (setServers r l).lastLoaded = r.lastLoaded ∧
      (setServers r l).dbFetches = r.dbFetches := by
  unfold setServers; split <;> simp

/-! ### Selection -/

theorem RandomServer_of_pool (e : Env) (r : Router) (h : r.servers ≠ []) :
    ∃ s i, RandomServer e r = some (s, reloadServersFromDB e r) ∧
      Intn e.rnd (reloadServersFromDB e r).servers.length = some i ∧
      i < (reloadServersFromDB e r).servers.length ∧
      (reloadServersFromDB e r).servers[i]? = some s ∧
      s ∈ (reloadServersFromDB e r).servers := by
  have hne := reloadServersFromDB_ne_nil e r h
  have hlen : (reloadServersFromDB e r).servers.length ≠ 0 := by
    rwa [Ne, List.length_eq_zero]
  have hi : e.rnd % (reloadServersFromDB e r).servers.length
      < (reloadServersFromDB e r).servers.length := Nat.mod_lt _ (Nat.pos_of_ne_zero hlen)
  refine ⟨(reloadServersFromDB e r).servers[e.rnd % (reloadServersFromDB e r).servers.length],
    _, ?_, ?_, hi, ?_, ?_⟩
  · simp [RandomServer, Intn, hlen, List.getElem?_eq_getElem hi]
  · simp [Intn, hlen]
  · exact List.getElem?_eq_getElem hi
  · exact List.getElem_mem _

theorem LeastLoaded_of_pool (e : Env) (r : Router) (h : r.servers ≠ []) :
    ∃ s r', LeastLoaded e r = some (s, r') ∧ r'.load = r.load := by
  by_cases hl : r.load.entries = []
  · obtain ⟨s, i, hs, -⟩ := RandomServer_of_pool e r h
    refine ⟨s, _, ?_, reloadServersFromDB_load e r⟩
    simp [LeastLoaded, hl, hs]
  · obtain ⟨s, v, hs, -⟩ := LeastLoaded_of_load e r hl
    exact ⟨s, r, hs, rfl⟩

/-! ### The update cycle -/

theorem updateLoop_lookup_of_not_mem (heap : Heap) (rpc : Nat → String → Option Nat)
    (s : ServerPtr) (l : List ServerPtr) (hs : s ∉ l) (k : Nat) (load : LoadMap) :
    (updateLoop heap rpc k l load).lookup s = load.lookup s := by
  induction l generalizing k load with
  | nil => rfl
  | cons t rest ih =>
    have hst : s ≠ t := fun h => hs (h ▸ List.mem_cons_self _ _)
    have hrest : s ∉ rest := fun h => hs (List.mem_cons_of_mem _ h)
    simp only [updateLoop]
    split
    · rw [ih hrest, AList.lookup_erase_ne hst]
    · rw [ih hrest, AList.lookup_insert_ne hst]

theorem updateLoop_lookup (heap : Heap) (rpc : Nat → String → Option Nat) (s : ServerPtr)
    (l : List ServerPtr) (i : Nat) (hi : l[i]? = some s)
    (hlast : ∀ j, i < j → l[j]? ≠ some s) (k : Nat) (load : LoadMap) :
    (updateLoop heap rpc k l load).lookup s = rpc (k + i) (heap s).Address := by
  induction l generalizing i k load with
  | nil => simp at hi
  | cons t rest ih =>
    cases i with
    | zero =>
      have hts : t = s := by simpa using hi
      subst hts
      have hrest : t ∉ rest := by
        intro hmem
        obtain ⟨j, hj⟩ := List.mem_iff_getElem?.mp hmem
        exact hlast (j + 1) (Nat.succ_pos j) (by simpa using hj)
      simp only [updateLoop, Nat.add_zero]
      split
      · next h => rw [updateLoop_lookup_of_not_mem heap rpc t rest hrest, AList.lookup_erase, h]
      · next v h => rw [updateLoop_lookup_of_not_mem heap rpc t rest hrest, AList.lookup_insert, h]
    | succ i =>
      have hi2 : rest[i]? = some s := by simpa using hi
      have hlast2 : ∀ j, i < j → rest[j]? ≠ some s := by
        intro j hj
        have := hlast (j + 1) (Nat.succ_lt_succ hj)
        simpa using this
      have hk : k + (i + 1) = k + 1 + i := by omega
      simp only [updateLoop]
      split
      · rw [ih i hi2 hlast2, hk]
      · rw [ih i hi2 hlast2, hk]

theorem reloadServersFromDB_fields_due (e : Env) (r : Router) (h : due e.now r) :
    (reloadServersFromDB e r).useDB = r.useDB ∧ (reloadServersFromDB e r).lastLoaded = e.now ∧
      (reloadServersFromDB e r).dbFetches = r.dbFetches + 1 := by
  rw [reloadServersFromDB_due e r h]
  exact setServers_fields _ _

theorem reloadServersFromDB_useDB (e : Env) (r : Router) :
    (reloadServersFromDB e r).useDB = r.useDB := by
  by_cases h : due e.now r
  · exact (reloadServersFromDB_fields_due e r h).1
  · rw [reloadServersFromDB_not_due e r h]

theorem reloadServersFromDB_dbFetches_le (e : Env) (r : Router) :
    (reloadServersFromDB e r).dbFetches ≤ r.dbFetches + 1 := by
  by_cases h : due e.now r
  · exact le_of_eq (reloadServersFromDB_fields_due e r h).2.2
  · rw [reloadServersFromDB_not_due e r h]; exact Nat.le_succ _

theorem RandomServer_state (e : Env) (r : Router) (s : ServerPtr) (r' : Router)
    (h : RandomServer e r = some (s, r')) : r' = reloadServersFromDB e r := by
  unfold RandomServer at h
  simp only at h
  split at h
  · exact absurd h (by simp)
  · split at h
    · exact absurd h (by simp)
    · simp only [Option.some.injEq, Prod.mk.injEq] at h
      exact h.2.symm

theorem LeastLoaded_state (e : Env) (r : Router) (s : ServerPtr) (r' : Router)
    (h : LeastLoaded e r = some (s, r')) : r' = r ∨ r' = reloadServersFromDB e r := by
  unfold LeastLoaded at h
  split at h
  · exact Or.inr (RandomServer_state e r s r' h)
  · split at h
    · exact absurd h (by simp)
    · simp only [Option.some.injEq, Prod.mk.injEq] at h
      exact Or.inl h.2.symm

theorem exec_static (heap : Heap) (c : Call) (r r' : Router) (h : r.useDB = false)
    (hc : c.exec heap r = some r') : r'.useDB = false ∧ r'.dbFetches = r.dbFetches := by
  cases c with
  | reloadServersFromDB e =>
    simp only [Call.exec, reloadServersFromDB_static e r h, Option.some.injEq] at hc
    subst hc; exact ⟨h, rfl⟩
  | GetAll e =>
    simp only [Call.exec, GetAll, reloadServersFromDB_static e r h, Option.some.injEq] at hc
    subst hc; exact ⟨h, rfl⟩
  | RandomServer e =>
    simp only [Call.exec, Option.map_eq_some', Prod.exists] at hc
    obtain ⟨s, r1, h1, rfl⟩ := hc
    rw [RandomServer_state e r s _ h1, reloadServersFromDB_static e r h]
    exact ⟨h, rfl⟩
  | LeastLoaded e =>
    simp only [Call.exec, Option.map_eq_some', Prod.exists] at hc
    obtain ⟨s, r1, h1, rfl⟩ := hc
    rcases LeastLoaded_state e r s _ h1 with h2 | h2
    · rw [h2]; exact ⟨h, rfl⟩
    · rw [h2, reloadServersFromDB_static e r h]; exact ⟨h, rfl⟩
  | updateLoadAndMetrics e1 rpc e2 =>
    simp only [Call.exec, updateLoadAndMetrics, GetAll, reloadServersFromDB_static e1 r h] at hc
    split at hc
    · exact absurd hc (by simp)
    · next s r3 h3 =>
      simp only [Option.some.injEq] at hc
      subst hc
      rcases LeastLoaded_state _ _ _ _ h3 with h2 | h2
      · rw [h2]; exact ⟨h, rfl⟩
      · have hs := reloadServersFromDB_static e2
          { r with load := updateLoop heap rpc 0 r.servers r.load } h
        rw [h2, hs]
        exact ⟨h, rfl⟩

theorem run_static (heap : Heap) (cs : List Call) (r r' : Router) (h : r.useDB = false)
    (hc : run heap cs r = some r') : r'.useDB = false ∧ r'.dbFetches = r.dbFetches := by
  induction cs generalizing r with
  | nil =>
    simp only [run, Option.some.injEq] at hc
    subst hc; exact ⟨h, rfl⟩
  | cons c cs ih =>
    simp only [run] at hc
    split at hc
    · exact absurd hc (by simp)
    · next r1 h1 =>
      obtain ⟨hu, hf⟩ := exec_static heap c r r1 h h1
      obtain ⟨hu2, hf2⟩ := ih r1 hu hc
      exact ⟨hu2, hf2.trans hf⟩

theorem not_due_after_one_second (e1 e2 : Env) (r : Router)
    (h : e2.now = e1.now + 1 * Second) (hd : due e1.now r) :
    ¬ due e2.now (reloadServersFromDB e1 r) := by
  obtain ⟨-, hl, -⟩ := reloadServersFromDB_fields_due e1 r hd
  rintro ⟨-, h2⟩
  rw [hl, h] at h2
  simp only [Second, Duration, Time] at h2
  omega

theorem due_after_31_seconds (e1 e2 : Env) (r : Router)
    (h : e2.now = e1.now + 31 * Second) (hd : due e1.now r) :
    due e2.now (reloadServersFromDB e1 r) := by
  obtain ⟨hu, hl, -⟩ := reloadServersFromDB_fields_due e1 r hd
  refine ⟨hu.trans hd.1, ?_⟩
  rw [hl, h]
  simp only [Second, Duration, Time]
  omega

/-- When a fetch returns no server, the refresh leaves the pool as it was. -/
theorem failed_fetch_without_servers (e : Env) (r : Router) (h : e.db.servers = []) :
    (reloadServersFromDB e r).servers = r.servers := by
  unfold reloadServersFromDB
  split
  · rfl
  · simp [setServers, h]

/-- The part of the eviction that the code achieves: when the query of the server `s`
at its last position in the pool fails, the cycle completes, the load map then
holds no entry for the Server value `s`, and `LeastLoaded`, over a load map that is
not empty, returns another Server value. -/
theorem failed_server_value_evicted (heap : Heap) (e1 : Env)
    (rpc : Nat → String → Option Nat) (e2 : Env) (r : Router) (i : Nat) (s : ServerPtr)
    (hi : (GetAll e1 r).1[i]? = some s)
    (hlast : ∀ j, i < j → (GetAll e1 r).1[j]? ≠ some s)
    (hfail : rpc i (heap s).Address = none) :
    ∃ r', updateLoadAndMetrics heap e1 rpc e2 r = some r' ∧ r'.load.lookup s = none ∧
      ∀ (e : Env) (t : ServerPtr) (r'' : Router), r'.load.entries ≠ [] →
        LeastLoaded e r' = some (t, r'') → t ≠ s := by
  have hpool : (reloadServersFromDB e1 r).servers ≠ [] := by
    intro h0
    simp [GetAll, h0] at hi
  obtain ⟨t, r3, ht, hload⟩ := LeastLoaded_of_pool e2
    { reloadServersFromDB e1 r with
      load := updateLoop heap rpc 0 (GetAll e1 r).1 (reloadServersFromDB e1 r).load } hpool
  have hnone : r3.load.lookup s = none := by
    rw [hload, ← hfail]
    have := updateLoop_lookup heap rpc s _ i hi hlast 0 (reloadServersFromDB e1 r).load
    simpa using this
  refine ⟨r3, ?_, hnone, ?_⟩
  · simp only [updateLoadAndMetrics]
    simp only [GetAll] at ht ⊢
    rw [ht]
  · intro e t2 r4 hne h4 hts
    obtain ⟨s0, v, hs0, hfm⟩ := LeastLoaded_of_load e r3 hne
    rw [hs0] at h4
    simp only [Option.some.injEq, Prod.mk.injEq] at h4
    have hmem := (mapRange_perm e.order r3.load.entries).mem_iff.mp hfm.mem
    have hlook : r3.load.lookup s0 = some v := AList.mem_lookup_iff.mpr hmem
    rw [h4.1, hts, hnone] at hlook
    exact absurd hlook (by simp)

/-! ## The claims -/

/-- C1: over a non-empty load map `LeastLoaded` returns, whatever the order in which
the map is visited, a server that has a recorded load, and that load is at most the
recorded load of every server of the map.  The router state is left as it was. -/
theorem LeastLoaded_minimum (e : Env) (r : Router) (h : r.load.entries ≠ []) :
    ∃ s v, LeastLoaded e r = some (s, r) ∧ r.load.lookup s = some v ∧
      ∀ t w, r.load.lookup t = some w → v ≤ w := by
  obtain ⟨s, v, hs, hfm⟩ := LeastLoaded_of_load e r h
  have hperm := mapRange_perm e.order r.load.entries
  refine ⟨s, v, hs, ?_, ?_⟩
  · exact AList.mem_lookup_iff.mpr (hperm.mem_iff.mp hfm.mem)
  · intro t w ht
    exact hfm.le ⟨t, w⟩ (hperm.mem_iff.mpr (AList.mem_lookup_iff.mp ht))

/-- Witness of C1: the loads `A:5`, `B:2`, `C:9`, recorded by one update cycle over the
pool of the three servers, give the server at `B`. -/
theorem LeastLoaded_minimum_witness :
    updateLoadAndMetrics exampleHeap (exampleEnv 0 [] [])
        (exampleRpc (some 5) (some 2) (some 9)) (exampleEnv 0 [] []) (NewWithServers [0, 1, 2])
      = some routerABC ∧
    (LeastLoaded (exampleEnv 0 [] [2, 0]) routerABC).map Prod.fst = some 1 ∧
    (exampleHeap 1).Address = "B" ∧
    routerABC.load.entries ≠ [] ∧
    ∃ s v, LeastLoaded (exampleEnv 0 [] [2, 0]) routerABC = some (s, routerABC) ∧
      routerABC.load.lookup s = some v ∧ ∀ t w, routerABC.load.lookup t = some w → v ≤ w :=
  ⟨rfl, by decide, by decide, by decide,
    LeastLoaded_minimum (exampleEnv 0 [] [2, 0]) routerABC (by decide)⟩

/-- C2, as the code has it: over a non-empty load map `LeastLoaded` returns a server
with the minimum recorded load, and among the servers that share that minimum it
returns the one that the iteration over the map visits first: every entry visited
before it has a strictly greater load, every entry visited after it a load at least
as great. -/
theorem LeastLoaded_first_visited (e : Env) (r : Router) (h : r.load.entries ≠ []) :
    ∃ s v pre post, LeastLoaded e r = some (s, r) ∧ r.load.lookup s = some v ∧
      mapRange e.order r.load.entries = pre ++ ⟨s, v⟩ :: post ∧
      (∀ x ∈ pre, v < x.2) ∧ (∀ x ∈ post, v ≤ x.2) ∧
      ∀ t w, r.load.lookup t = some w → v ≤ w := by
  obtain ⟨s, v, hs, hfm⟩ := LeastLoaded_of_load e r h
  have hperm := mapRange_perm e.order r.load.entries
  have hmem := hfm.mem
  have hle := hfm.le
  obtain ⟨pre, post, hit, hpre, hpost⟩ := hfm
  refine ⟨s, v, pre, post, hs, ?_, hit, hpre, hpost, ?_⟩
  · exact AList.mem_lookup_iff.mpr (hperm.mem_iff.mp hmem)
  · intro t w ht
    exact hle ⟨t, w⟩ (hperm.mem_iff.mpr (AList.mem_lookup_iff.mp ht))

/-- Witness of C2 as amended, at the loads `A:3`, `B:3`. -/
theorem LeastLoaded_first_visited_witness :
    routerTie.load.entries ≠ [] ∧
    ∃ s v pre post, LeastLoaded (exampleEnv 0 [] [1]) routerTie = some (s, routerTie) ∧
      routerTie.load.lookup s = some v ∧
      mapRange (exampleEnv 0 [] [1]).order routerTie.load.entries = pre ++ ⟨s, v⟩ :: post ∧
      (∀ x ∈ pre, v < x.2) ∧ (∀ x ∈ post, v ≤ x.2) ∧
      ∀ t w, routerTie.load.lookup t = some w → v ≤ w :=
  ⟨by decide, LeastLoaded_first_visited (exampleEnv 0 [] [1]) routerTie (by decide)⟩

/-- C2 fails as stated: with the loads `A:3`, `B:3`, recorded by one update cycle over
the pool of the two servers, `LeastLoaded` returns the server at `B` when the
iteration over the map visits it first, and the server at `A` when it visits that
one first, although `A` is the smaller address. -/
theorem LeastLoaded_tie_follows_iteration :
    updateLoadAndMetrics exampleHeap (exampleEnv 0 [] []) (exampleRpc (some 3) (some 3) none)
        (exampleEnv 0 [] []) (NewWithServers [0, 1])
      = some routerTie ∧
    routerTie.load.lookup 0 = some 3 ∧ routerTie.load.lookup 1 = some 3 ∧
    (exampleHeap 0).Address = "A" ∧ (exampleHeap 1).Address = "B" ∧
    (exampleHeap 0).Address < (exampleHeap 1).Address ∧
    (LeastLoaded (exampleEnv 0 [] [0]) routerTie).map Prod.fst = some 1 ∧
    (LeastLoaded (exampleEnv 0 [] [1]) routerTie).map Prod.fst = some 0 :=
  ⟨rfl, by decide, by decide, by decide, by decide,
    String.lt_iff_toList_lt.mpr (by decide), by decide, by decide⟩

/-- C3 fails on the code: the store-backed router records `A:5`, `B:2` for the objects
`0` and `1`, so that `LeastLoaded` returns the server at `B`; the pool is then
replaced by the newly constructed objects `10` and `11` at the same addresses, and
in the next cycle `B` does not respond.  The cycle deletes the key `11`, which has no
entry; the entry of the object `1`, at the address `B`, stays in the load map, and
`LeastLoaded` still returns that object. -/
theorem failed_server_still_least_loaded :
    staleCycle1.map (fun r => r.load.entries) = some [⟨1, 2⟩, ⟨0, 5⟩] ∧
    (staleCycle1.bind (LeastLoaded (exampleEnv 100 [0, 1] []))).map Prod.fst = some 1 ∧
    (exampleHeap 1).Address = "B" ∧
    staleCycle2.map (fun r => r.servers) = some [10, 11] ∧
    (exampleHeap 11).Address = "B" ∧
    exampleRpc (some 5) none none 1 (exampleHeap 11).Address = none ∧
    staleCycle2.map (fun r => r.load.entries) = some [⟨10, 5⟩, ⟨1, 2⟩, ⟨0, 5⟩] ∧
    staleCycle2.map (fun r => r.load.lookup 1) = some (some 2) ∧
    (staleCycle2.bind (LeastLoaded (exampleEnv 220 [10, 11] []))).map Prod.fst = some 1 ∧
    (staleCycle2.bind (LeastLoaded (exampleEnv 220 [10, 11] [2, 1]))).map Prod.fst = some 1 := by
  decide

/-- C4: one update cycle over the pool `P` that `GetAll` returns completes, and for the
server `s` at any position `i` of `P` the load map then holds what the query of
that position returned: the entry `s ↦ v` when it succeeded with `TotalPages = v`, no
entry for `s` when it failed, whatever the outcomes of the other queries.  (The
position is the last one at which `s` occurs in `P`, its only one when the servers
of `P` are distinct.) -/
theorem updateLoadAndMetrics_each (heap : Heap) (e1 : Env) (rpc : Nat → String → Option Nat)
    (e2 : Env) (r : Router) (i : Nat) (s : ServerPtr)
    (hi : (GetAll e1 r).1[i]? = some s)
    (hlast : ∀ j, i < j → (GetAll e1 r).1[j]? ≠ some s) :
    ∃ r', updateLoadAndMetrics heap e1 rpc e2 r = some r' ∧
      r'.load.lookup s = rpc i (heap s).Address := by
  have hpool : (reloadServersFromDB e1 r).servers ≠ [] := by
    intro h0
    simp [GetAll, h0] at hi
  obtain ⟨t, r3, ht, hload⟩ := LeastLoaded_of_pool e2
    { reloadServersFromDB e1 r with
      load := updateLoop heap rpc 0 (GetAll e1 r).1 (reloadServersFromDB e1 r).load } hpool
  refine ⟨r3, ?_, ?_⟩
  · simp only [updateLoadAndMetrics]
    simp only [GetAll] at ht ⊢
    rw [ht]
  · rw [hload]
    have := updateLoop_lookup heap rpc s _ i hi hlast 0 (reloadServersFromDB e1 r).load
    simpa using this

/-- Witness of C4: in a cycle over the pool of the objects `0`, `1`, `2` in which the
server at `B` does not respond while the two others do, the cycle completes and
the load map holds no entry for the object `1`. -/
theorem updateLoadAndMetrics_each_witness :
    (GetAll (exampleEnv 0 [] []) (NewWithServers [0, 1, 2])).1[1]? = some 1 ∧
    ∃ r', updateLoadAndMetrics exampleHeap (exampleEnv 0 [] [])
        (exampleRpc (some 5) none (some 9)) (exampleEnv 0 [] []) (NewWithServers [0, 1, 2])
          = some r' ∧
      r'.load.lookup 1 = exampleRpc (some 5) none (some 9) 1 (exampleHeap 1).Address :=
  ⟨by decide,
    updateLoadAndMetrics_each exampleHeap (exampleEnv 0 [] []) (exampleRpc (some 5) none (some 9))
      (exampleEnv 0 [] []) (NewWithServers [0, 1, 2]) 1 1 (by decide)
      (by
        intro j hj
        have hp : (GetAll (exampleEnv 0 [] []) (NewWithServers [0, 1, 2])).1 = [0, 1, 2] := by
          decide
        rw [hp]
        match j, hj with
        | 2, _ => decide
        | j + 3, _ => simp)⟩

/-- C5 fails on the code: the store-backed router records the load 5 for the object `0`
at the address `A`; the pool is then replaced by the newly constructed object `10`
at the same address.  After the replacement the server of the pool at `A` has no
recorded load, and after the next cycle, in which `A` reports 7 pages, the load map
holds two entries for the address `A`: the map is keyed by the pointer, while the
gauge set in the same loop is keyed by the address. -/
theorem two_entries_for_one_address :
    rekeyCycle1.map (fun r => r.load.entries) = some [⟨0, 5⟩] ∧
    (exampleHeap 0).Address = (exampleHeap 10).Address ∧
    (rekeyCycle1.map fun r => (GetAll (exampleEnv 220 [10] []) r).1) = some [10] ∧
    (rekeyCycle1.map fun r => (GetAll (exampleEnv 220 [10] []) r).2.load.lookup 10)
      = some none ∧
    rekeyCycle2.map (fun r => r.load.entries) = some [⟨10, 7⟩, ⟨0, 5⟩] ∧
    (rekeyCycle2.map fun r =>
      (r.load.entries.filter fun x => decide ((exampleHeap x.1).Address = "A")).length)
      = some 2 := by
  decide

/-- C6, as the code has it.  A call of `reloadServersFromDB` fetches from the store
exactly when the router is store-backed and at least 30 seconds have passed since
the time recorded at the previous fetch (it then records the time of the call), and
otherwise changes nothing.  A router built by `NewWithServers` never fetches,
whatever calls are made on it.  Two calls of `GetAll` one second apart cause at most
one fetch.  Two calls of `GetAll` 31 seconds apart on a store-backed router cause two
fetches when the first call is itself made at least 30 seconds after the recorded
time, and one fetch when it is made less than 30 seconds after it. -/
theorem reloadServersFromDB_throttle :
    (∀ (e : Env) (r : Router),
      ((reloadServersFromDB e r).dbFetches = r.dbFetches + 1 ↔
        (r.useDB = true ∧ 30 * Second ≤ e.now - r.lastLoaded)) ∧
      ((r.useDB = true ∧ 30 * Second ≤ e.now - r.lastLoaded) →
        (reloadServersFromDB e r).lastLoaded = e.now) ∧
      (¬ (r.useDB = true ∧ 30 * Second ≤ e.now - r.lastLoaded) →
        reloadServersFromDB e r = r)) ∧
    (∀ (heap : Heap) (l : List ServerPtr) (cs : List Call) (r : Router),
      run heap cs (NewWithServers l) = some r → r.dbFetches = 0) ∧
    (∀ (e1 e2 : Env) (r : Router), e2.now = e1.now + 1 * Second →
      (GetAll e2 (GetAll e1 r).2).2.dbFetches ≤ r.dbFetches + 1) ∧
    (∀ (e1 e2 : Env) (r : Router), e2.now = e1.now + 31 * Second → r.useDB = true →
      30 * Second ≤ e1.now - r.lastLoaded →
      (GetAll e2 (GetAll e1 r).2).2.dbFetches = r.dbFetches + 2) ∧
    (∀ (e1 e2 : Env) (r : Router), e2.now = e1.now + 31 * Second → r.useDB = true →
      r.lastLoaded ≤ e1.now → e1.now - r.lastLoaded < 30 * Second →
      (GetAll e2 (GetAll e1 r).2).2.dbFetches = r.dbFetches + 1) := by
  refine ⟨fun e r => ⟨⟨fun h => ?_, fun h => ?_⟩, fun h => ?_, fun h => ?_⟩, ?_, ?_, ?_, ?_⟩
  · by_contra hd
    rw [reloadServersFromDB_not_due e r hd] at h
    omega
  · exact (reloadServersFromDB_fields_due e r h).2.2
  · exact (reloadServersFromDB_fields_due e r h).2.1
  · exact reloadServersFromDB_not_due e r h
  · intro heap l cs r h
    have h0 := setServers_fields
      { servers := [], load := ∅, useDB := false, lastLoaded := 0, dbFetches := 0 } l
    have := run_static heap cs (NewWithServers l) r h0.1 h
    rw [this.2]
    exact h0.2.2
  · intro e1 e2 r h
    simp only [GetAll]
    by_cases hd : due e1.now r
    · rw [reloadServersFromDB_not_due e2 _ (not_due_after_one_second e1 e2 r h hd)]
      exact reloadServersFromDB_dbFetches_le e1 r
    · rw [reloadServersFromDB_not_due e1 r hd]
      exact reloadServersFromDB_dbFetches_le e2 r
  · intro e1 e2 r h hu hl
    have hd : due e1.now r := ⟨hu, hl⟩
    simp only [GetAll]
    rw [(reloadServersFromDB_fields_due e2 _ (due_after_31_seconds e1 e2 r h hd)).2.2,
      (reloadServersFromDB_fields_due e1 r hd).2.2]
  · intro e1 e2 r h hu hle hlt
    have hd : ¬ due e1.now r := fun hd => absurd hlt (not_lt.mpr hd.2)
    have hd2 : due e2.now r := by
      refine ⟨hu, ?_⟩
      rw [h]
      simp only [Second, Duration, Time] at hle ⊢
      omega
    simp only [GetAll]
    rw [reloadServersFromDB_not_due e1 r hd, (reloadServersFromDB_fields_due e2 r hd2).2.2]

/-- Witness of C6 as amended: on the store-backed router that fetched at second 100, a
call of `GetAll` at second 200 and another at second 231 cause two fetches. -/
theorem reloadServersFromDB_throttle_witness :
    (exampleEnv 231 [0] []).now = (exampleEnv 200 [0] []).now + 31 * Second ∧
    routerFetchedAt100.useDB = true ∧
    30 * Second ≤ (exampleEnv 200 [0] []).now - routerFetchedAt100.lastLoaded ∧
    (GetAll (exampleEnv 231 [0] []) (GetAll (exampleEnv 200 [0] []) routerFetchedAt100).2).2.dbFetches
      = routerFetchedAt100.dbFetches + 2 :=
  ⟨by decide, by decide, by decide,
    reloadServersFromDB_throttle.2.2.2.1 (exampleEnv 200 [0] []) (exampleEnv 231 [0] [])
      routerFetchedAt100 (by decide) (by decide) (by decide)⟩

/-- C6 fails as stated: on a store-backed router that fetched at second 100, a call of
`GetAll` at second 101 and another at second 132, 31 seconds later, cause one fetch
and not two. -/
theorem two_calls_31_seconds_apart_one_fetch :
    New (exampleEnv 100 [0] []) [] = routerFetchedAt100 ∧
    routerFetchedAt100.useDB = true ∧ routerFetchedAt100.dbFetches = 1 ∧
    (exampleEnv 132 [0] []).now = (exampleEnv 101 [0] []).now + 31 * Second ∧
    (GetAll (exampleEnv 101 [0] []) routerFetchedAt100).2.dbFetches = 1 ∧
    (GetAll (exampleEnv 132 [0] []) (GetAll (exampleEnv 101 [0] []) routerFetchedAt100).2).2.dbFetches
      = 2 :=
  ⟨rfl, by decide, by decide, by decide, by decide, by decide⟩

/-- C7: when the store fetch fails (an error, which by the contract of the fetch comes
with no servers), the pool is left unchanged, in every router state: the refresh
keeps the list, the call of `GetAll` that made the failed refresh returns the list
held before, and so does a later call of `GetAll` that is throttled or whose own
fetch returns no servers.  When the refresh is due the fetch is really made. -/
theorem failed_fetch_keeps_pool (e : Env) (r : Router) (hfail : e.db.err ≠ none)
    (hvalid : e.db.valid) :
    (reloadServersFromDB e r).servers = r.servers ∧
    (GetAll e r).1 = r.servers ∧
    ((r.useDB = true ∧ 30 * Second ≤ e.now - r.lastLoaded) →
      (reloadServersFromDB e r).dbFetches = r.dbFetches + 1 ∧
      ∀ e2 : Env, 0 ≤ e2.now - e.now → e2.now - e.now < 30 * Second →
        (GetAll e2 (reloadServersFromDB e r)).1 = r.servers) ∧
    ∀ e2 : Env, e2.db.servers = [] →
      (GetAll e2 (reloadServersFromDB e r)).1 = r.servers := by
  have hnil : e.db.servers = [] := hvalid hfail
  have hkeep := failed_fetch_without_servers e r hnil
  refine ⟨hkeep, hkeep, fun hd => ⟨(reloadServersFromDB_fields_due e r hd).2.2, ?_⟩, ?_⟩
  · intro e2 _ hlt
    have hnot : ¬ due e2.now (reloadServersFromDB e r) := by
      rintro ⟨-, h2⟩
      rw [(reloadServersFromDB_fields_due e r hd).2.1] at h2
      exact absurd hlt (not_lt.mpr h2)
    simp only [GetAll]
    rw [reloadServersFromDB_not_due e2 _ hnot]
    exact hkeep
  · intro e2 h2
    simp only [GetAll]
    rw [failed_fetch_without_servers e2 _ h2]
    exact hkeep

/-- Witness of C7: the store-backed router that fetched the pool `[0]` at second 100
makes a fetch at second 200 that fails; the pool is still `[0]`. -/
theorem failed_fetch_keeps_pool_witness :
    failingFetchEnv.db.err ≠ none ∧ failingFetchEnv.db.valid ∧
    routerFetchedAt100.useDB = true ∧
    30 * Second ≤ failingFetchEnv.now - routerFetchedAt100.lastLoaded ∧
    routerFetchedAt100.servers = [0] ∧
    (reloadServersFromDB failingFetchEnv routerFetchedAt100).dbFetches = 2 ∧
    (reloadServersFromDB failingFetchEnv routerFetchedAt100).servers
      = routerFetchedAt100.servers ∧
    (GetAll failingFetchEnv routerFetchedAt100).1 = routerFetchedAt100.servers :=
  ⟨by decide, fun _ => rfl, by decide, by decide, by decide, by decide,
    (failed_fetch_keeps_pool failingFetchEnv routerFetchedAt100 (by decide) (fun _ => rfl)).1,
    (failed_fetch_keeps_pool failingFetchEnv routerFetchedAt100 (by decide)
      (fun _ => rfl)).2.1⟩

/-- C8: on a router that is not store-backed, after `setServers l` the list returned
by `GetAll` is `l` itself when `l` is not empty, and the list held before the call
(the one `GetAll` returned before it) when `l` is empty. -/
theorem setServers_GetAll (e : Env) (r : Router) (l : List ServerPtr)
    (h : r.useDB = false) :
    (l ≠ [] → (GetAll e (setServers r l)).1 = l) ∧
    (l = [] → (GetAll e (setServers r l)).1 = r.servers ∧
      (GetAll e (setServers r l)).1 = (GetAll e r).1) := by
  have hs : (setServers r l).useDB = false := (setServers_fields r l).1.trans h
  simp only [GetAll, reloadServersFromDB_static e _ hs, reloadServersFromDB_static e r h]
  constructor
  · intro hl
    simp [setServers, hl]
  · intro hl
    simp [setServers, hl]

/-- Witness of C8, at the pool `[0, 1]` replaced by `[2, 0]`. -/
theorem setServers_GetAll_witness :
    (NewWithServers [0, 1]).useDB = false ∧
    ([2, 0] ≠ [] →
      (GetAll (exampleEnv 50 [7] []) (setServers (NewWithServers [0, 1]) [2, 0])).1 = [2, 0]) ∧
    ([2, 0] = [] →
      (GetAll (exampleEnv 50 [7] []) (setServers (NewWithServers [0, 1]) [2, 0])).1
        = (NewWithServers [0, 1]).servers ∧
      (GetAll (exampleEnv 50 [7] []) (setServers (NewWithServers [0, 1]) [2, 0])).1
        = (GetAll (exampleEnv 50 [7] []) (NewWithServers [0, 1])).1) :=
  ⟨by decide, setServers_GetAll (exampleEnv 50 [7] []) (NewWithServers [0, 1]) [2, 0] (by decide)⟩

/-- C9: when the pool is not empty and the load map is empty, `LeastLoaded` does not
panic and returns what `RandomServer` returns: the server at an index that
`rand.Intn` picks within the bounds of the pool held after the conditional refresh,
hence a member of that pool. -/
theorem LeastLoaded_bootstrap (e : Env) (r : Router) (hpool : r.servers ≠ [])
    (hload : r.load.entries = []) :
    LeastLoaded e r = RandomServer e r ∧
    ∃ s r' i, LeastLoaded e r = some (s, r') ∧ r' = (GetAll e r).2 ∧
      Intn e.rnd r'.servers.length = some i ∧ i < r'.servers.length ∧
      r'.servers[i]? = some s ∧ s ∈ r'.servers := by
  have h1 : LeastLoaded e r = RandomServer e r := by simp [LeastLoaded, hload]
  obtain ⟨s, i, hs, hi, hlt, hget, hmem⟩ := RandomServer_of_pool e r hpool
  exact ⟨h1, s, _, i, h1.trans hs, rfl, hi, hlt, hget, hmem⟩

/-- Witness of C9, at a store-backed router with the pool `[0]` whose refresh is due
and brings the pool `[0, 1, 2]`. -/
theorem LeastLoaded_bootstrap_witness :
    routerFetchedAt100.servers ≠ [] ∧ routerFetchedAt100.load.entries = [] ∧
    LeastLoaded (exampleEnv 200 [0, 1, 2] []) routerFetchedAt100
      = RandomServer (exampleEnv 200 [0, 1, 2] []) routerFetchedAt100 ∧
    ∃ s r' i, LeastLoaded (exampleEnv 200 [0, 1, 2] []) routerFetchedAt100 = some (s, r') ∧
      r' = (GetAll (exampleEnv 200 [0, 1, 2] []) routerFetchedAt100).2 ∧
      Intn (exampleEnv 200 [0, 1, 2] []).rnd r'.servers.length = some i ∧
      i < r'.servers.length ∧ r'.servers[i]? = some s ∧ s ∈ r'.servers :=
  ⟨by decide, by decide,
    LeastLoaded_bootstrap (exampleEnv 200 [0, 1, 2] []) routerFetchedAt100 (by decide) (by decide)⟩

/-- C10: `WalletID` is injective over all the integers, negative ones included, and
`WalletID 42` is `lbrytv-id.42.wallet`. -/
theorem WalletID_injective :
    (∀ a b : Int, WalletID a = WalletID b → a = b) ∧ WalletID 42 = "lbrytv-id.42.wallet" := by
  refine ⟨fun a b h => ?_, ?_⟩
  · have hd := congrArg String.data h
    rw [WalletID_data, WalletID_data] at hd
    have h1 := List.append_cancel_right hd
    have h2 := List.append_cancel_left h1
    exact formatInt_injective (String.ext h2)
  · simp [WalletID, formatInt, decimalDigits]

/-- Witness of C10: the identifiers of the users 42 and -42 differ. -/
theorem WalletID_injective_witness :
    WalletID 42 = "lbrytv-id.42.wallet" ∧ WalletID (-42) = "lbrytv-id.-42.wallet" ∧
    WalletID 42 ≠ WalletID (-42) :=
  ⟨WalletID_injective.2,
    by show WalletID (Int.negSucc 41) = _; simp [WalletID, formatInt, decimalDigits],
    fun h => absurd (WalletID_injective.1 42 (-42) h) (by decide)⟩

end sdkrouter
